import Mathlib

/-!
Verification of the blink daemon core (blinkd) against its specification.

The embedding translates the daemon in src/bin/blinkd.rs and the duration
parser in src/config.rs into Lean:

* Durations and instants are rational numbers of seconds.  The source stores
  durations as std::time::Duration and converts to f64 seconds for the modulo
  and the decline multiplication; the embedding performs that arithmetic
  exactly over the rationals.
* The u64 unix timestamps are natural numbers.
* The side-effect descriptors attached to a timer (notification text, sound
  path, command string) are omitted: the core never reads them except to hand
  them to collaborator calls, and no claim mentions them.
* The notify call is a pure side effect; the tick function returns a Bool
  recording whether the notify branch ran, which is the only observable.
-/

namespace Blink

/-- Models Duration::MAX (u64::MAX seconds plus 999 999 999 nanoseconds),
the sentinel stored in next_timer_at by Daemon::new. -/
def durMAX : ℚ := 18446744073709551615 + 999999999 / 1000000000

/-- Models the f64 % operator as used in Daemon::update_timer.  Rust f64 %
truncates toward zero; both operands there are nonnegative (elapsed time and
a positive interval), where truncation and floor agree. -/
def fmod (x y : ℚ) : ℚ := x - y * ⌊x / y⌋

/-- Models Ord::cmp on Duration (total order on the rational model). -/
def cmpQ (a b : ℚ) : Ordering :=
  if a < b then Ordering.lt else if b < a then Ordering.gt else Ordering.eq

/-- Models config::InputTracking (both fields are durations parsed from the
configuration). -/
structure InputTracking where
  pause_after : ℚ
  reset_after : ℚ
deriving DecidableEq

/-- Models config::Timer.  The opaque side-effect descriptors (notification,
sound, command) are omitted; the scheduling core never inspects them. -/
structure Timer where
  interval : ℚ
  initial_delay : Option ℚ
  decline : ℚ
deriving DecidableEq

/-- Models config::Config. -/
structure Config where
  timers : List Timer
  input_tracking : Option InputTracking
deriving DecidableEq

/-- Models blinkd::TimerState. -/
@[ext]
structure TimerState where
  time_left : ℚ
  prompts : ℕ
  timer : Timer
deriving DecidableEq

/-- Models TimerState::new (Default yields zero time_left and zero prompts). -/
def TimerState.new (b : Timer) : TimerState :=
  { time_left := 0, prompts := 0, timer := b }

/-- Models TimerState::reset. -/
def TimerState.reset (s : TimerState) : TimerState := { s with prompts := 0 }

/-- Models blinkd::Daemon.  last_update is the instant of the previous tick,
as a rational number of seconds on an arbitrary monotone clock. -/
@[ext]
structure Daemon where
  config : Config
  elapsed : ℚ
  last_update : ℚ
  next_timer_at : ℚ
  next_timer : Option Timer
  timers : List TimerState
  is_enabled : Bool
  is_frozen : Bool
  last_input : ℕ
deriving DecidableEq

/-- Models Daemon::new.  Instant::now() and get_unix_time() are passed in as
the parameters now and nowUnix. -/
def Daemon.new (config : Config) (now : ℚ) (nowUnix : ℕ) : Daemon :=
  { config := config
    elapsed := 0
    last_update := now
    next_timer_at := durMAX
    next_timer := none
    timers := config.timers.map TimerState.new
    is_enabled := true
    is_frozen := false
    last_input := nowUnix }

/-- Models the per-timer time_left computation in the for-loop at the top of
Daemon::update_timer (the three let-chain branches on initial_delay). -/
def computeTimeLeft (elapsed : ℚ) (t : Timer) : ℚ :=
  match t.initial_delay with
  | some initial_delay =>
      if elapsed ≤ initial_delay then initial_delay - elapsed
      else t.interval - fmod (elapsed - initial_delay) t.interval
  | none => t.interval - fmod elapsed t.interval

/-- Models the comparator closure passed to sort_by in Daemon::update_timer:
ascending time_left, ties broken by descending interval. -/
def timerCmp (a b : TimerState) : Ordering :=
  (cmpQ a.time_left b.time_left).then (cmpQ b.timer.interval a.timer.interval)

/-- The boolean relation corresponding to timerCmp, used to drive the stable
merge sort (Rust's sort_by is a stable sort w.r.t. the comparator). -/
def timerLE (a b : TimerState) : Bool := timerCmp a b ≠ Ordering.gt

/-- Models Daemon::update_timer: recompute every time_left, sort stably by
the comparator, then bump the winner's prompt count and set next_timer_at
from the decline-adjusted wait.  With no timers, only an error is logged and
no field other than the (empty) timer list is touched. -/
def Daemon.updateTimer (d : Daemon) : Daemon :=
  match (d.timers.map fun s =>
      { s with time_left := computeTimeLeft d.elapsed s.timer }).mergeSort timerLE with
  | [] => { d with timers := [] }
  | next :: rest =>
      { d with
        timers := { next with prompts := next.prompts + 1 } :: rest
        next_timer_at :=
          d.elapsed + next.time_left * (1 / (1 + next.timer.decline)) ^ next.prompts
        next_timer := some next.timer }

/-- Models Daemon::reset: zero elapsed, zero every prompt count, recompute
the schedule. -/
def Daemon.reset (d : Daemon) : Daemon :=
  Daemon.updateTimer
    { d with elapsed := 0, timers := d.timers.map TimerState.reset }

/-- Models now.duration_since(self.last_update): the tick delta, saturating
at zero when the clock did not advance. -/
def tickDelta (d : Daemon) (now : ℚ) : ℚ := max (now - d.last_update) 0

/-- Models Duration::from_secs(get_unix_time() - self.last_input) in
Daemon::tick.  The u64 subtraction is modelled by truncated natural
subtraction; the two agree whenever nowUnix is at least last_input, which
holds for every run in which activity timestamps lie in the past. -/
def elapsedSinceInput (d : Daemon) (nowUnix : ℕ) : ℚ := (nowUnix - d.last_input : ℕ)

/-- Models the freeze / unfreeze adjustment in the input-tracking branch of
Daemon::tick (the two trailing ifs of the else-if block). -/
def adjustFrozen (d : Daemon) (it : InputTracking) (esi : ℚ) : Daemon :=
  if d.is_frozen = false ∧ it.pause_after < esi then { d with is_frozen := true }
  else if d.is_frozen = true ∧ esi < 3 then { d with is_frozen := false }
  else d

/-- Models the tail of Daemon::tick: advance elapsed when neither frozen nor
disabled, then fire (notify and recompute the schedule) when elapsed has
reached next_timer_at.  The Bool records whether notify ran. -/
def advanceAndFire (d : Daemon) (delta : ℚ) : Daemon × Bool :=
  let d' :=
    if d.is_frozen = false ∧ d.is_enabled = true then
      { d with elapsed := d.elapsed + delta }
    else d
  if d'.next_timer_at ≤ d'.elapsed then (Daemon.updateTimer d', true) else (d', false)

/-- Models Daemon::tick.  The first branch is the suspend-gap detection
(big delta between ticks), the second the input-inactivity handling, and the
tail is the advance / fire logic.  The Bool records whether notify ran. -/
def Daemon.tickFull (d0 : Daemon) (now : ℚ) (nowUnix : ℕ) : Daemon × Bool :=
  let delta := tickDelta d0 now
  let d := { d0 with last_update := now }
  match d.config.input_tracking with
  | none => advanceAndFire d delta
  | some it =>
      if it.reset_after ≤ delta then
        if 0 < d.elapsed then (Daemon.reset d, false)
        else advanceAndFire d delta
      else if it.reset_after ≤ elapsedSinceInput d nowUnix ∧ 0 < d.elapsed then
        ({ Daemon.reset d with is_frozen := true }, false)
      else
        advanceAndFire (adjustFrozen d it (elapsedSinceInput d nowUnix)) delta

/-- The daemon state after one tick. -/
def Daemon.tick (d : Daemon) (now : ℚ) (nowUnix : ℕ) : Daemon :=
  (Daemon.tickFull d now nowUnix).1

/-- Whether the notify branch (a firing) ran during the tick. -/
def Daemon.tickFired (d : Daemon) (now : ℚ) (nowUnix : ℕ) : Bool :=
  (Daemon.tickFull d now nowUnix).2

/-- Whether this tick takes one of the two early-return reset branches of
Daemon::tick (suspend-gap reset or input-inactivity reset). -/
def tickResets (d : Daemon) (now : ℚ) (nowUnix : ℕ) : Bool :=
  match d.config.input_tracking with
  | none => false
  | some it =>
      if it.reset_after ≤ tickDelta d now then decide (0 < d.elapsed)
      else decide (it.reset_after ≤ elapsedSinceInput d nowUnix ∧ 0 < d.elapsed)

/-- Models the activity-message arm of the select loop in Daemon::run:
the received timestamp unconditionally overwrites last_input. -/
def receiveActivity (d : Daemon) (last_input : ℕ) : Daemon :=
  { d with last_input := last_input }

/-- Models str::split(':') on the character list of the input (Rust split
keeps empty parts, and splitting the empty string yields one empty part). -/
def splitColon : List Char → List (List Char)
  | [] => [[]]
  | c :: cs =>
      if c = ':' then [] :: splitColon cs
      else
        match splitColon cs with
        | [] => [[c]]
        | p :: ps => (c :: p) :: ps

/-- Value of a single decimal digit character, none for any other character. -/
def digitVal (c : Char) : Option ℕ :=
  if '0' ≤ c ∧ c ≤ '9' then some (c.toNat - '0'.toNat) else none

/-- Decimal value of a nonempty all-digit character list, none otherwise. -/
def digitsVal (cs : List Char) : Option ℕ :=
  match cs with
  | [] => none
  | _ =>
      cs.foldl
        (fun acc c =>
          match acc, digitVal c with
          | some a, some v => some (a * 10 + v)
          | _, _ => none)
        (some 0)

/-- Models str::parse::<u64>(): an optional leading plus sign, then at least
one decimal digit, rejecting values that do not fit in a u64. -/
def parseU64 (cs : List Char) : Option ℕ :=
  let cs' := match cs with | '+' :: rest => rest | _ => cs
  match digitsVal cs' with
  | some n => if n < 2 ^ 64 then some n else none
  | none => none

/-- Models duration_format::deserialize in src/config.rs: accepts mm:ss or
hh:mm:ss, requires the seconds (and in the three-part form the minutes)
component to be at most 59, and builds the duration via Duration::from_secs.
The u64 products and sums are reduced modulo 2 to the 64th as in release-mode
Rust; no check rejects a zero duration. -/
def parseDuration (s : String) : Except String ℚ :=
  match splitColon s.data with
  | [p1, p2] =>
      match parseU64 p1 with
      | none => Except.error "failed to parse minutes"
      | some mins =>
          match parseU64 p2 with
          | none => Except.error "failed to parse seconds"
          | some secs =>
              if 59 < secs then Except.error "seconds must be in range 0-59"
              else Except.ok (((mins * 60 + secs) % 2 ^ 64 : ℕ) : ℚ)
  | [p1, p2, p3] =>
      match parseU64 p1 with
      | none => Except.error "failed to parse hours"
      | some hours =>
          match parseU64 p2 with
          | none => Except.error "failed to parse minutes"
          | some mins =>
              match parseU64 p3 with
              | none => Except.error "failed to parse seconds"
              | some secs =>
                  if 59 < mins then Except.error "minutes must be in range 0-59"
                  else if 59 < secs then Except.error "seconds must be in range 0-59"
                  else Except.ok (((hours * 3600 + mins * 60 + secs) % 2 ^ 64 : ℕ) : ℚ)
  | _ => Except.error "duration must be in format mm:ss or hh:mm:ss"

/-- Scenario A timer: interval twenty minutes, no initial delay, no decline. -/
def tA : Timer := { interval := 1200, initial_delay := none, decline := 0 }

/-- Scenario A catalog: exactly one timer, no input tracking. -/
def cfgA : Config := { timers := [tA], input_tracking := none }

/-- Scenario A freshly initialized daemon (clock starts at zero). -/
def dA : Daemon := Daemon.new cfgA 0 0

/-- Empty catalog configuration. -/
def cfgE : Config := { timers := [], input_tracking := none }

/-- Daemon started on the empty catalog. -/
def dE : Daemon := Daemon.new cfgE 0 0

/-- Input-tracking settings used by the concrete witnesses: freeze after 30
seconds of inactivity, reset after 300 seconds. -/
def itW : InputTracking := { pause_after := 30, reset_after := 300 }

/-- Catalog with one timer and input tracking configured. -/
def cfgT : Config := { timers := [tA], input_tracking := some itW }

/-- Daemon on cfgT with five seconds of elapsed time. -/
def dT : Daemon := { Daemon.new cfgT 0 0 with elapsed := 5 }

/-- Daemon on cfgT in the freshly initialized state (elapsed zero). -/
def dT0 : Daemon := Daemon.new cfgT 0 0

/-- Scenario B timer: interval sixty minutes, decline one half. -/
def tB : Timer := { interval := 3600, initial_delay := none, decline := 1/2 }

/-- Scenario B catalog: exactly one timer, no input tracking. -/
def cfgB : Config := { timers := [tB], input_tracking := none }

/-- Folding a list of (now, nowUnix) tick inputs over the daemon state. -/
def foldTicks (d : Daemon) : List (ℚ × ℕ) → Daemon
  | [] => d
  | (t, u) :: l => foldTicks (Daemon.tick d t u) l

/-- A run of ticks during which the state stays frozen: every step has its
unix time at least the (constant) last_input, takes neither reset branch,
and leaves the state frozen. -/
def frozenRun (d : Daemon) : List (ℚ × ℕ) → Prop
  | [] => True
  | (t, u) :: l =>
      d.last_input ≤ u ∧ tickResets d t u = false ∧
        (Daemon.tick d t u).is_frozen = true ∧ frozenRun (Daemon.tick d t u) l

/-- Scenario A run: the startup update_timer call of Daemon::run followed by
n one-second ticks at instants one, two, three, and so on. -/
def runA : ℕ → Daemon
  | 0 => Daemon.updateTimer (Daemon.new cfgA 0 0)
  | n + 1 => Daemon.tick (runA n) ((n : ℚ) + 1) 0

/-- Number of firings (notify calls) during the first n ticks of the
scenario A run. -/
def firesA : ℕ → ℕ
  | 0 => 0
  | n + 1 => firesA n + (if Daemon.tickFired (runA n) ((n : ℚ) + 1) 0 = true then 1 else 0)

/-- Frozen daemon used by the freeze-transparency witness: input tracking
configured, five seconds elapsed, currently frozen. -/
def dF : Daemon := { Daemon.new cfgT 0 0 with elapsed := 5, is_frozen := true }

/-- Closed form of the scenario A state while no firing has happened yet:
at instant q the schedule still points at 1200 with one startup prompt. -/
def stateA (q : ℚ) : Daemon :=
  { config := cfgA
    elapsed := q
    last_update := q
    next_timer_at := 1200
    next_timer := some tA
    timers := [{ time_left := 1200, prompts := 1, timer := tA }]
    is_enabled := true
    is_frozen := false
    last_input := 0 }

/-- Scenario A state right after the firing at twenty minutes. -/
def finalA : Daemon :=
  { config := cfgA
    elapsed := 1200
    last_update := 1200
    next_timer_at := 2400
    next_timer := some tA
    timers := [{ time_left := 1200, prompts := 2, timer := tA }]
    is_enabled := true
    is_frozen := false
    last_input := 0 }

/-- Scenario B state after the startup schedule computation. -/
def dB1 : Daemon :=
  { config := cfgB
    elapsed := 0
    last_update := 0
    next_timer_at := 3600
    next_timer := some tB
    timers := [{ time_left := 3600, prompts := 1, timer := tB }]
    is_enabled := true
    is_frozen := false
    last_input := 0 }

/-- Scenario B state after the first firing at sixty minutes. -/
def dB2 : Daemon :=
  { config := cfgB
    elapsed := 3600
    last_update := 3600
    next_timer_at := 6000
    next_timer := some tB
    timers := [{ time_left := 3600, prompts := 2, timer := tB }]
    is_enabled := true
    is_frozen := false
    last_input := 0 }

section Preservation

variable (d : Daemon) (delta : ℚ)

/-- update_timer never touches elapsed. -/
@[simp]
theorem updateTimer_elapsed : (Daemon.updateTimer d).elapsed = d.elapsed := by
  unfold Daemon.updateTimer; split <;> rfl

/-- update_timer never touches the config. -/
@[simp]
theorem updateTimer_config : (Daemon.updateTimer d).config = d.config := by
  unfold Daemon.updateTimer; split <;> rfl

/-- update_timer never touches last_update. -/
@[simp]
theorem updateTimer_last_update : (Daemon.updateTimer d).last_update = d.last_update := by
  unfold Daemon.updateTimer; split <;> rfl

/-- update_timer never touches the enabled flag. -/
@[simp]
theorem updateTimer_is_enabled : (Daemon.updateTimer d).is_enabled = d.is_enabled := by
  unfold Daemon.updateTimer; split <;> rfl

/-- update_timer never touches the frozen flag. -/
@[simp]
theorem updateTimer_is_frozen : (Daemon.updateTimer d).is_frozen = d.is_frozen := by
  unfold Daemon.updateTimer; split <;> rfl

/-- update_timer never touches last_input. -/
@[simp]
theorem updateTimer_last_input : (Daemon.updateTimer d).last_input = d.last_input := by
  unfold Daemon.updateTimer; split <;> rfl

/-- reset zeroes elapsed. -/
@[simp]
theorem reset_elapsed : (Daemon.reset d).elapsed = 0 := by
  unfold Daemon.reset; simp

/-- reset never touches the config. -/
@[simp]
theorem reset_config : (Daemon.reset d).config = d.config := by
  unfold Daemon.reset; simp

/-- reset never touches last_update. -/
@[simp]
theorem reset_last_update : (Daemon.reset d).last_update = d.last_update := by
  unfold Daemon.reset; simp

/-- reset never touches the enabled flag. -/
@[simp]
theorem reset_is_enabled : (Daemon.reset d).is_enabled = d.is_enabled := by
  unfold Daemon.reset; simp

/-- reset never touches the frozen flag. -/
@[simp]
theorem reset_is_frozen : (Daemon.reset d).is_frozen = d.is_frozen := by
  unfold Daemon.reset; simp

/-- The advance-and-fire tail changes elapsed exactly when the state is
neither frozen nor disabled, and then by exactly delta. -/
theorem advanceAndFire_fst_elapsed :
    ((advanceAndFire d delta).1).elapsed =
      if d.is_frozen = false ∧ d.is_enabled = true then d.elapsed + delta
      else d.elapsed := by
  unfold advanceAndFire
  by_cases h : d.is_frozen = false ∧ d.is_enabled = true <;> simp only [h] <;>
    split <;> split <;> simp [h]

/-- The advance-and-fire tail never changes the frozen flag. -/
theorem advanceAndFire_fst_is_frozen :
    ((advanceAndFire d delta).1).is_frozen = d.is_frozen := by
  unfold advanceAndFire
  by_cases h : d.is_frozen = false ∧ d.is_enabled = true <;> simp only [h] <;>
    split <;> split <;> simp [h]

/-- The advance-and-fire tail never changes the enabled flag. -/
theorem advanceAndFire_fst_is_enabled :
    ((advanceAndFire d delta).1).is_enabled = d.is_enabled := by
  unfold advanceAndFire
  by_cases h : d.is_frozen = false ∧ d.is_enabled = true <;> simp only [h] <;>
    split <;> split <;> simp [h]

end Preservation

section Comparator

/-- Characterization of the sort relation: a timer ranks no later than
another when its time_left is smaller, or the time_lefts tie and its
interval is at least as large. -/
theorem timerLE_iff (a b : TimerState) :
    timerLE a b = true ↔
      a.time_left < b.time_left ∨
        (a.time_left = b.time_left ∧ b.timer.interval ≤ a.timer.interval) := by
  unfold timerLE timerCmp cmpQ
  rcases lt_trichotomy a.time_left b.time_left with h1 | h1 | h1
  · simp [h1, not_lt.mpr h1.le, Ordering.then]
  · rcases lt_trichotomy b.timer.interval a.timer.interval with h2 | h2 | h2
    · simp [h1, lt_irrefl, h2, not_lt.mpr h2.le, Ordering.then, h2.le]
    · simp [h1, h2, lt_irrefl, Ordering.then]
    · simp [h1, lt_irrefl, h2, not_lt.mpr h2.le, Ordering.then, not_le.mpr h2]
  · simp [h1, not_lt.mpr h1.le, ne_of_gt h1, Ordering.then, not_le.mpr h1]

/-- The sort relation is total. -/
theorem timerLE_total (a b : TimerState) : (timerLE a b || timerLE b a) = true := by
  simp only [Bool.or_eq_true, timerLE_iff]
  rcases lt_trichotomy a.time_left b.time_left with h | h | h
  · exact Or.inl (Or.inl h)
  · rcases le_total b.timer.interval a.timer.interval with h2 | h2
    · exact Or.inl (Or.inr ⟨h, h2⟩)
    · exact Or.inr (Or.inr ⟨h.symm, h2⟩)
  · exact Or.inr (Or.inl h)

/-- The sort relation is transitive. -/
theorem timerLE_trans (a b c : TimerState) :
    timerLE a b = true → timerLE b c = true → timerLE a c = true := by
  simp only [timerLE_iff]
  rintro (h | ⟨h1, h2⟩) (g | ⟨g1, g2⟩)
  · exact Or.inl (h.trans g)
  · exact Or.inl (g1 ▸ h)
  · exact Or.inl (h1 ▸ g)
  · exact Or.inr ⟨h1.trans g1, g2.trans h2⟩

/-- Stable merge sort of a two-element list. -/
theorem mergeSort_pair (a b : TimerState) :
    List.mergeSort [a, b] timerLE = if timerLE a b then [a, b] else [b, a] := by
  simp [List.mergeSort, List.merge]

end Comparator

section EmptyCatalog

/-- With no timers, update_timer only logs an error and leaves the whole
state unchanged. -/
theorem updateTimer_empty (d : Daemon) (h : d.timers = []) :
    Daemon.updateTimer d = d := by
  unfold Daemon.updateTimer
  rw [h]
  simp only [List.map_nil, List.mergeSort_nil]
  ext <;> simp [h]

/-- With no timers, reset only zeroes elapsed. -/
theorem reset_empty (d : Daemon) (h : d.timers = []) :
    Daemon.reset d = { d with elapsed := 0 } := by
  unfold Daemon.reset
  rw [updateTimer_empty _ (by simp [h])]
  rw [h]; rfl

/-- With no timers, the advance-and-fire tail only (possibly) advances
elapsed; the fire branch's update_timer call is the identity. -/
theorem advanceAndFire_empty (d : Daemon) (delta : ℚ) (h : d.timers = []) :
    (advanceAndFire d delta).1 =
      if d.is_frozen = false ∧ d.is_enabled = true then
        { d with elapsed := d.elapsed + delta }
      else d := by
  unfold advanceAndFire
  by_cases hc : d.is_frozen = false ∧ d.is_enabled = true <;> dsimp only <;> split <;>
    split <;>
      first
        | exact updateTimer_empty _ (by simp [h])
        | rfl

/-- The freeze adjustment touches only the frozen flag: timer list. -/
theorem adjustFrozen_timers (d : Daemon) (it : InputTracking) (e : ℚ) :
    (adjustFrozen d it e).timers = d.timers := by
  unfold adjustFrozen; split_ifs <;> rfl

/-- The freeze adjustment touches only the frozen flag: next_timer. -/
theorem adjustFrozen_next_timer (d : Daemon) (it : InputTracking) (e : ℚ) :
    (adjustFrozen d it e).next_timer = d.next_timer := by
  unfold adjustFrozen; split_ifs <;> rfl

/-- The freeze adjustment touches only the frozen flag: next_timer_at. -/
theorem adjustFrozen_next_timer_at (d : Daemon) (it : InputTracking) (e : ℚ) :
    (adjustFrozen d it e).next_timer_at = d.next_timer_at := by
  unfold adjustFrozen; split_ifs <;> rfl

/-- The freeze adjustment touches only the frozen flag: elapsed. -/
theorem adjustFrozen_elapsed (d : Daemon) (it : InputTracking) (e : ℚ) :
    (adjustFrozen d it e).elapsed = d.elapsed := by
  unfold adjustFrozen; split_ifs <;> rfl

/-- The freeze adjustment touches only the frozen flag: enabled flag. -/
theorem adjustFrozen_is_enabled (d : Daemon) (it : InputTracking) (e : ℚ) :
    (adjustFrozen d it e).is_enabled = d.is_enabled := by
  unfold adjustFrozen; split_ifs <;> rfl

end EmptyCatalog

/-- C2, counterexample.  The claim says the stored activity timestamp
becomes max(S, T); the activity arm of Daemon::run assigns unconditionally,
so with stored value 10 and incoming 5 the stored value becomes 5, while
max 10 5 is 10. -/
theorem C2_counterexample :
    (receiveActivity { dA with last_input := 10 } 5).last_input = 5 ∧
      ¬ (receiveActivity { dA with last_input := 10 } 5).last_input = max 10 5 := by
  exact ⟨rfl, by decide⟩

/-- C2, amended.  Activity ingestion is last-write-wins: the received
timestamp unconditionally overwrites last_input, so an out-of-order (older)
timestamp strictly decreases the stored value instead of leaving it. -/
theorem C2_overwrite_last_write_wins (d : Daemon) (T : ℕ) :
    (receiveActivity d T).last_input = T ∧
      (T < d.last_input → (receiveActivity d T).last_input < d.last_input) :=
  ⟨rfl, fun h => h⟩

/-- C2 witness: concrete instance of the amended claim. -/
theorem C2_overwrite_last_write_wins_witness :
    (5 : ℕ) < 10 ∧ (receiveActivity { dA with last_input := 10 } 5).last_input < 10 :=
  ⟨by decide, (C2_overwrite_last_write_wins { dA with last_input := 10 } 5).2 (by decide)⟩

/-- C4: the duration parser accepts a zero duration.  Both "00:00" and
"00:00:00" parse successfully to the zero duration; no configuration-load
check rejects a zero interval, contradicting the spec's requirement that a
zero interval be rejected before the tick loop (where it would reach the
modulo in update_timer). -/
theorem C4_zero_duration_parses :
    parseDuration "00:00" = Except.ok 0 ∧ parseDuration "00:00:00" = Except.ok 0 := by
  constructor
  · have h : parseDuration "00:00" = Except.ok ((0 : ℕ) : ℚ) := rfl
    rw [h]; norm_num
  · have h : parseDuration "00:00:00" = Except.ok ((0 : ℕ) : ℚ) := rfl
    rw [h]; norm_num

/-- C3, counterexample.  The claim says an empty catalog is surfaced as a
fatal error and the process does not continue ticking.  In the code,
update_timer on the empty catalog selects nothing (next_timer stays None,
next_timer_at stays the Duration::MAX sentinel, an error is only logged) and
the next tick still advances elapsed normally. -/
theorem C3_counterexample :
    (Daemon.updateTimer dE).next_timer = none ∧
      (Daemon.updateTimer dE).next_timer_at = durMAX ∧
      (Daemon.tick (Daemon.updateTimer dE) 1 0).elapsed = 1 := by
  have hup : Daemon.updateTimer dE = dE := updateTimer_empty dE rfl
  refine ⟨by rw [hup]; rfl, by rw [hup]; rfl, ?_⟩
  rw [hup]
  have h1 : Daemon.tick dE 1 0 =
      (advanceAndFire { dE with last_update := 1 } (tickDelta dE 1)).1 := rfl
  rw [h1, advanceAndFire_empty _ _ rfl]
  norm_num [dE, cfgE, Daemon.new, tickDelta, max_def]

/-- C3, amended.  With an empty timer catalog, update_timer is the identity
(no timer is selected, an error is only logged) and the daemon keeps
ticking: every tick leaves the timer list empty and never changes
next_timer or next_timer_at, so no firing can ever occur, but the process
does not stop. -/
theorem C3_empty_catalog_keeps_ticking (d : Daemon) (now : ℚ) (u : ℕ)
    (h : d.timers = []) :
    Daemon.updateTimer d = d ∧
      (Daemon.tick d now u).timers = [] ∧
      (Daemon.tick d now u).next_timer = d.next_timer ∧
      (Daemon.tick d now u).next_timer_at = d.next_timer_at := by
  refine ⟨updateTimer_empty d h, ?_⟩
  unfold Daemon.tick Daemon.tickFull
  cases hit : d.config.input_tracking with
  | none =>
      simp only [hit]
      rw [advanceAndFire_empty { d with last_update := now } (tickDelta d now) h]
      split <;> exact ⟨h, rfl, rfl⟩
  | some it =>
      simp only [hit]
      split_ifs with h2 h3 h4
      · rw [reset_empty { d with last_update := now } h]
        exact ⟨h, rfl, rfl⟩
      · rw [advanceAndFire_empty { d with last_update := now } (tickDelta d now) h]
        split <;> exact ⟨h, rfl, rfl⟩
      · rw [reset_empty { d with last_update := now } h]
        exact ⟨h, rfl, rfl⟩
      · rw [advanceAndFire_empty
            (adjustFrozen { d with last_update := now } it
              (elapsedSinceInput { d with last_update := now } u))
            (tickDelta d now) (by rw [adjustFrozen_timers]; exact h)]
        split <;>
          exact ⟨by rw [adjustFrozen_timers]; exact h, by rw [adjustFrozen_next_timer],
            by rw [adjustFrozen_next_timer_at]⟩

/-- C3 witness: concrete instance of the amended claim on the empty-catalog
daemon. -/
theorem C3_empty_catalog_keeps_ticking_witness :
    dE.timers = [] ∧ (Daemon.tick dE 1 0).next_timer = dE.next_timer :=
  ⟨rfl, (C3_empty_catalog_keeps_ticking dE 1 0 rfl).2.2.1⟩

/-- C7: after update_timer the timer list is ordered by ascending computed
time_left with ties broken by descending interval, and with a catalog of two
timers whose computed time_left values are equal, the one with the larger
configured interval is the selected next timer. -/
theorem C7_tiebreak_larger_interval :
    (∀ d : Daemon,
        ((Daemon.updateTimer d).timers).Pairwise fun a b =>
          a.time_left < b.time_left ∨
            (a.time_left = b.time_left ∧ b.timer.interval ≤ a.timer.interval)) ∧
      ∀ (d : Daemon) (a b : TimerState), d.timers = [a, b] →
        computeTimeLeft d.elapsed a.timer = computeTimeLeft d.elapsed b.timer →
        a.timer.interval < b.timer.interval →
        (Daemon.updateTimer d).next_timer = some b.timer := by
  constructor
  · intro d
    have hs := List.sorted_mergeSort timerLE_trans timerLE_total
      (d.timers.map fun s => { s with time_left := computeTimeLeft d.elapsed s.timer })
    unfold Daemon.updateTimer
    cases hsort : (d.timers.map fun s =>
        { s with time_left := computeTimeLeft d.elapsed s.timer }).mergeSort timerLE with
    | nil => simp [hsort]
    | cons x rest =>
        rw [hsort] at hs
        simp only [hsort]
        have hR : (x :: rest).Pairwise fun a b =>
            a.time_left < b.time_left ∨
              (a.time_left = b.time_left ∧ b.timer.interval ≤ a.timer.interval) :=
          hs.imp fun h => (timerLE_iff _ _).mp h
        rcases List.pairwise_cons.mp hR with ⟨hx, hrest⟩
        exact List.pairwise_cons.mpr ⟨fun b hb => hx b hb, hrest⟩
  · intro d a b hts htl hint
    have hle : timerLE
        ({ a with time_left := computeTimeLeft d.elapsed a.timer })
        ({ b with time_left := computeTimeLeft d.elapsed b.timer }) = false := by
      cases hc : timerLE ({ a with time_left := computeTimeLeft d.elapsed a.timer })
          ({ b with time_left := computeTimeLeft d.elapsed b.timer }) with
      | false => rfl
      | true =>
          exfalso
          rcases (timerLE_iff _ _).mp hc with h | ⟨h1, h2⟩
          · exact absurd htl (ne_of_lt h)
          · exact absurd h2 (not_le.mpr hint)
    unfold Daemon.updateTimer
    rw [hts]
    simp only [List.map_cons, List.map_nil]
    rw [mergeSort_pair]
    simp [hle]

/-- C7 witness: two timers with intervals 2 and 4 both have time_left 2 at
elapsed 2; the interval-4 timer is selected. -/
theorem C7_tiebreak_larger_interval_witness :
    computeTimeLeft (2 : ℚ) { interval := 2, initial_delay := none, decline := 0 } =
        computeTimeLeft (2 : ℚ) { interval := 4, initial_delay := none, decline := 0 } ∧
      (Daemon.updateTimer
          { dA with
            elapsed := 2
            timers :=
              [{ time_left := 0, prompts := 0,
                  timer := { interval := 2, initial_delay := none, decline := 0 } },
                { time_left := 0, prompts := 0,
                  timer := { interval := 4, initial_delay := none, decline := 0 } }] }).next_timer =
        some { interval := 4, initial_delay := none, decline := 0 } := by
  have h : computeTimeLeft (2 : ℚ) { interval := 2, initial_delay := none, decline := 0 } =
      computeTimeLeft (2 : ℚ) { interval := 4, initial_delay := none, decline := 0 } := by
    norm_num [computeTimeLeft, fmod]
  exact ⟨h, C7_tiebreak_larger_interval.2 _ _ _ rfl h (by norm_num)⟩

/-- C8: with input tracking configured, positive elapsed time, and a tick
delta at least reset_after, the tick performs exactly the full reset (zero
elapsed, zero prompt counts, schedule recompute) and skips the rest of the
advancement logic, so none of the gap is credited to elapsed. -/
theorem C8_suspend_gap_resets (d : Daemon) (now : ℚ) (u : ℕ) (it : InputTracking)
    (hit : d.config.input_tracking = some it)
    (hdelta : it.reset_after ≤ tickDelta d now)
    (hel : 0 < d.elapsed) :
    Daemon.tick d now u = Daemon.reset { d with last_update := now } ∧
      (Daemon.tick d now u).elapsed = 0 := by
  have h1 : Daemon.tick d now u = Daemon.reset { d with last_update := now } := by
    unfold Daemon.tick Daemon.tickFull
    simp only [hit]
    rw [if_pos hdelta, if_pos hel]
  exact ⟨h1, by rw [h1]; simp⟩

/-- C8 witness: a 400-second gap on a state with 5 seconds elapsed and a
300-second reset threshold performs the reset. -/
theorem C8_suspend_gap_resets_witness :
    Daemon.tick dT 400 0 = Daemon.reset { dT with last_update := 400 } ∧
      (Daemon.tick dT 400 0).elapsed = 0 :=
  C8_suspend_gap_resets dT 400 0 itW rfl
    (by norm_num [tickDelta, dT, cfgT, Daemon.new, itW, max_def])
    (by norm_num [dT, cfgT, Daemon.new])

/-- C10: with input tracking configured, a tick whose delta is at least
reset_after but whose state has elapsed equal to zero performs no reset and
skips the whole inactivity branch (the frozen flag is untouched); when
enabled and not frozen the full delta is credited to elapsed. -/
theorem C10_gap_with_zero_elapsed (d : Daemon) (now : ℚ) (u : ℕ) (it : InputTracking)
    (hit : d.config.input_tracking = some it)
    (hdelta : it.reset_after ≤ tickDelta d now)
    (hel : d.elapsed = 0) :
    tickResets d now u = false ∧
      (Daemon.tick d now u).is_frozen = d.is_frozen ∧
      (Daemon.tick d now u).elapsed =
        (if d.is_enabled = true ∧ d.is_frozen = false then tickDelta d now else 0) := by
  have hres : tickResets d now u = false := by
    unfold tickResets
    simp only [hit]
    rw [if_pos hdelta]
    simp [hel]
  have htick : Daemon.tick d now u =
      (advanceAndFire { d with last_update := now } (tickDelta d now)).1 := by
    unfold Daemon.tick Daemon.tickFull
    simp only [hit]
    rw [if_pos hdelta, if_neg (by simp [hel])]
  refine ⟨hres, ?_, ?_⟩
  · rw [htick, advanceAndFire_fst_is_frozen]
  · rw [htick, advanceAndFire_fst_elapsed]
    cases hf : d.is_frozen <;> cases he : d.is_enabled <;> simp [hf, he, hel]

/-- On a tick that takes neither reset branch, elapsed changes exactly when
the state is enabled and ends the tick unfrozen, and then by exactly the
tick's delta. -/
theorem tick_elapsed_no_reset (d : Daemon) (now : ℚ) (u : ℕ)
    (hres : tickResets d now u = false) :
    (Daemon.tick d now u).elapsed =
      (if d.is_enabled = true ∧ (Daemon.tick d now u).is_frozen = false
        then d.elapsed + tickDelta d now else d.elapsed) := by
  cases hit : d.config.input_tracking with
  | none =>
      have htick : Daemon.tick d now u =
          (advanceAndFire { d with last_update := now } (tickDelta d now)).1 := by
        unfold Daemon.tick Daemon.tickFull
        simp only [hit]
      rw [htick, advanceAndFire_fst_elapsed, advanceAndFire_fst_is_frozen]
      cases hf : d.is_frozen <;> cases he : d.is_enabled <;> simp [hf, he]
  | some it =>
      unfold tickResets at hres
      simp only [hit] at hres
      by_cases h2 : it.reset_after ≤ tickDelta d now
      · rw [if_pos h2] at hres
        have hel : ¬ 0 < d.elapsed := of_decide_eq_false hres
        have htick : Daemon.tick d now u =
            (advanceAndFire { d with last_update := now } (tickDelta d now)).1 := by
          unfold Daemon.tick Daemon.tickFull
          simp only [hit]
          rw [if_pos h2, if_neg hel]
        rw [htick, advanceAndFire_fst_elapsed, advanceAndFire_fst_is_frozen]
        cases hf : d.is_frozen <;> cases he : d.is_enabled <;> simp [hf, he]
      · rw [if_neg h2] at hres
        have hcond : ¬ (it.reset_after ≤
            elapsedSinceInput { d with last_update := now } u ∧ 0 < d.elapsed) :=
          of_decide_eq_false hres
        have htick : Daemon.tick d now u =
            (advanceAndFire
              (adjustFrozen { d with last_update := now } it
                (elapsedSinceInput { d with last_update := now } u))
              (tickDelta d now)).1 := by
          unfold Daemon.tick Daemon.tickFull
          simp only [hit]
          rw [if_neg h2, if_neg hcond]
        rw [htick, advanceAndFire_fst_elapsed, advanceAndFire_fst_is_frozen]
        rw [adjustFrozen_elapsed, adjustFrozen_is_enabled]
        cases haf : (adjustFrozen { d with last_update := now } it
            (elapsedSinceInput { d with last_update := now } u)).is_frozen <;>
          cases he : d.is_enabled <;> simp [haf, he]

/-- During a frozen run of ticks, elapsed never changes. -/
theorem foldTicks_frozen_elapsed (d : Daemon) (l : List (ℚ × ℕ))
    (h : frozenRun d l) : (foldTicks d l).elapsed = d.elapsed := by
  induction l generalizing d with
  | nil => rfl
  | cons x l ih =>
      rcases x with ⟨t, u⟩
      rcases h with ⟨hb, hres, hfroz, hrest⟩
      have h1 : (Daemon.tick d t u).elapsed = d.elapsed := by
        rw [tick_elapsed_no_reset d t u hres, if_neg (by simp [hfroz])]
      show (foldTicks (Daemon.tick d t u) l).elapsed = d.elapsed
      rw [ih _ hrest, h1]

/-- C9: on every tick that takes no reset branch, elapsed changes only when
the state is enabled and not frozen, and then by exactly the tick's delta;
during a frozen run of ticks elapsed never changes; and a subsequent
non-reset tick that ends unfrozen on an enabled state resumes advancing
elapsed from exactly the value held when the state froze. -/
theorem C9_freeze_transparency :
    (∀ (d : Daemon) (now : ℚ) (u : ℕ), tickResets d now u = false →
        (Daemon.tick d now u).elapsed =
          (if d.is_enabled = true ∧ (Daemon.tick d now u).is_frozen = false
            then d.elapsed + tickDelta d now else d.elapsed)) ∧
      (∀ (d : Daemon) (l : List (ℚ × ℕ)), frozenRun d l →
        (foldTicks d l).elapsed = d.elapsed) ∧
      ∀ (d : Daemon) (l : List (ℚ × ℕ)) (now : ℚ) (u : ℕ), frozenRun d l →
        tickResets (foldTicks d l) now u = false →
        (foldTicks d l).is_enabled = true →
        (Daemon.tick (foldTicks d l) now u).is_frozen = false →
        (Daemon.tick (foldTicks d l) now u).elapsed =
          d.elapsed + tickDelta (foldTicks d l) now := by
  refine ⟨tick_elapsed_no_reset, foldTicks_frozen_elapsed, ?_⟩
  intro d l now u hr hres hen hfroz
  rw [tick_elapsed_no_reset _ _ _ hres, if_pos ⟨hen, hfroz⟩,
    foldTicks_frozen_elapsed d l hr]

/-- C9 witness: a concrete frozen tick leaves elapsed at 5, and the
unfreezing tick advances it by its delta. -/
theorem C9_freeze_transparency_witness :
    frozenRun dF [(1, 5)] ∧
      (foldTicks dF [(1, 5)]).elapsed = dF.elapsed ∧
      (Daemon.tick (foldTicks dF [(1, 5)]) 2 2).elapsed =
        dF.elapsed + tickDelta (foldTicks dF [(1, 5)]) 2 := by
  have h1 : Daemon.tick dF 1 5 = { dF with last_update := 1 } := by
    simp only [Daemon.tick, Daemon.tickFull, dF, cfgT, itW, tA, Daemon.new, TimerState.new,
      adjustFrozen, advanceAndFire, tickDelta, elapsedSinceInput, durMAX]
    norm_num
  have hres1 : tickResets dF 1 5 = false := by
    simp only [tickResets, dF, cfgT, itW, tA, Daemon.new, TimerState.new, tickDelta,
      elapsedSinceInput, decide_eq_false_iff_not]
    norm_num
  have hfr : frozenRun dF [(1, 5)] := by
    refine ⟨by norm_num [dF, cfgT, Daemon.new], hres1, ?_, trivial⟩
    rw [h1]
    rfl
  have hfold : foldTicks dF [(1, 5)] = { dF with last_update := 1 } := by
    show foldTicks (Daemon.tick dF 1 5) [] = _
    rw [h1]
    rfl
  have h2 : Daemon.tick { dF with last_update := 1 } 2 2 =
      { dF with last_update := 2, elapsed := 6, is_frozen := false } := by
    simp only [Daemon.tick, Daemon.tickFull, dF, cfgT, itW, tA, Daemon.new, TimerState.new,
      adjustFrozen, advanceAndFire, tickDelta, elapsedSinceInput, durMAX]
    norm_num
  refine ⟨hfr, C9_freeze_transparency.2.1 dF [(1, 5)] hfr, ?_⟩
  refine C9_freeze_transparency.2.2 dF [(1, 5)] 2 2 hfr ?_ ?_ ?_
  · rw [hfold]
    simp only [tickResets, dF, cfgT, itW, tA, Daemon.new, TimerState.new, tickDelta,
      elapsedSinceInput, decide_eq_false_iff_not]
    norm_num
  · rw [hfold]
    rfl
  · rw [hfold, h2]

/-- Explicit form of update_timer when the sorted recomputed list is known
to be nonempty. -/
theorem updateTimer_cases (d : Daemon) (x : TimerState) (rest : List TimerState)
    (h : (d.timers.map fun s =>
        { s with time_left := computeTimeLeft d.elapsed s.timer }).mergeSort timerLE =
      x :: rest) :
    Daemon.updateTimer d =
      { d with
        timers := { x with prompts := x.prompts + 1 } :: rest
        next_timer_at :=
          d.elapsed + x.time_left * (1 / (1 + x.timer.decline)) ^ x.prompts
        next_timer := some x.timer } := by
  unfold Daemon.updateTimer
  rw [h]

/-- C1, amended.  Reset is idempotent and zeroes elapsed, but the schedule
recompute inside reset increments the selected (first-ranked) timer's prompt
count: after a reset the prompt counts are 1 for the selected timer and 0
for every other timer (and the claimed all-zero state does not hold). -/
theorem C1_reset_idempotent (d : Daemon) :
    Daemon.reset (Daemon.reset d) = Daemon.reset d ∧
      (Daemon.reset d).elapsed = 0 ∧
      (Daemon.reset d).timers.map TimerState.prompts =
        (match d.timers with
          | [] => []
          | _ :: t => 1 :: List.replicate t.length 0) := by
  have hP : ∀ s ∈ ((d.timers.map TimerState.reset).map fun s =>
      { s with time_left := computeTimeLeft (0 : ℚ) s.timer }).mergeSort timerLE,
      s.prompts = 0 ∧ s.time_left = computeTimeLeft 0 s.timer := by
    intro s hs
    have hmem := (List.mergeSort_perm _ timerLE).subset hs
    simp only [List.mem_map] at hmem
    obtain ⟨a, ⟨v, hv, rfl⟩, rfl⟩ := hmem
    exact ⟨rfl, rfl⟩
  have hsorted := List.sorted_mergeSort timerLE_trans timerLE_total
    ((d.timers.map TimerState.reset).map fun s =>
      { s with time_left := computeTimeLeft (0 : ℚ) s.timer })
  cases hsort : ((d.timers.map TimerState.reset).map fun s =>
      { s with time_left := computeTimeLeft (0 : ℚ) s.timer }).mergeSort timerLE with
  | nil =>
      have hLnil : ((d.timers.map TimerState.reset).map fun s =>
          { s with time_left := computeTimeLeft (0 : ℚ) s.timer }) = [] := by
        have := List.mergeSort_perm ((d.timers.map TimerState.reset).map fun s =>
          { s with time_left := computeTimeLeft (0 : ℚ) s.timer }) timerLE
        rw [hsort] at this
        exact this.symm.eq_nil
      have hdt : d.timers = [] := by simpa using hLnil
      refine ⟨?_, by simp, ?_⟩
      · rw [reset_empty d hdt]
        exact reset_empty _ hdt
      · rw [reset_empty d hdt, hdt]
        rfl
  | cons x rest =>
      obtain ⟨hx0, hxtl⟩ := hP x (by rw [hsort]; exact List.mem_cons_self x rest)
      have hrest : ∀ s ∈ rest, s.prompts = 0 ∧ s.time_left = computeTimeLeft 0 s.timer :=
        fun s hs => hP s (by rw [hsort]; exact List.mem_cons_of_mem x hs)
      rw [hsort] at hsorted
      have h1 : Daemon.reset d =
          { d with
            elapsed := 0
            timers := { x with prompts := x.prompts + 1 } :: rest
            next_timer_at :=
              0 + x.time_left * (1 / (1 + x.timer.decline)) ^ x.prompts
            next_timer := some x.timer } :=
        updateTimer_cases
          { d with elapsed := 0, timers := d.timers.map TimerState.reset } x rest hsort
      have hresetbump : TimerState.reset { x with prompts := x.prompts + 1 } = x := by
        ext <;> simp [TimerState.reset, hx0]
      have hrestmap : rest.map TimerState.reset = rest := by
        have h := @List.map_congr_left _ rest _ TimerState.reset id
          (fun s hs => by ext <;> simp [TimerState.reset, (hrest s hs).1])
        simpa using h
      have hrecompute : ((x :: rest).map fun s =>
          { s with time_left := computeTimeLeft (0 : ℚ) s.timer }) = x :: rest := by
        have hfun : ∀ s ∈ x :: rest,
            ({ s with time_left := computeTimeLeft (0 : ℚ) s.timer } : TimerState) =
              id s := by
          intro s hs
          rcases List.mem_cons.mp hs with rfl | hs2
          · ext <;> simp [hxtl.symm]
          · ext <;> simp [((hrest s hs2).2).symm]
        have h := @List.map_congr_left _ (x :: rest) _ _ id hfun
        simpa using h
      have hsort2 : ((({ x with prompts := x.prompts + 1 } :: rest).map
          TimerState.reset).map fun s =>
            { s with time_left := computeTimeLeft (0 : ℚ) s.timer }).mergeSort timerLE =
          x :: rest := by
        rw [List.map_cons, hresetbump, hrestmap, hrecompute]
        exact List.mergeSort_of_sorted hsorted
      have h2 : Daemon.reset (Daemon.reset d) =
          { d with
            elapsed := 0
            timers := { x with prompts := x.prompts + 1 } :: rest
            next_timer_at :=
              0 + x.time_left * (1 / (1 + x.timer.decline)) ^ x.prompts
            next_timer := some x.timer } := by
        have h2a := updateTimer_cases
          { Daemon.reset d with
            elapsed := 0
            timers := (Daemon.reset d).timers.map TimerState.reset } x rest
          (by rw [h1]; exact hsort2)
        calc Daemon.reset (Daemon.reset d)
            = Daemon.updateTimer
                { Daemon.reset d with
                  elapsed := 0
                  timers := (Daemon.reset d).timers.map TimerState.reset } := rfl
          _ = _ := by rw [h2a, h1]
      refine ⟨by rw [h2, h1], by simp, ?_⟩
      rw [h1]
      cases hdt : d.timers with
      | nil =>
          exfalso
          rw [hdt] at hsort
          simp at hsort
      | cons y t =>
          have hlen : rest.length = t.length := by
            have hperm := List.mergeSort_perm ((d.timers.map TimerState.reset).map fun s =>
              { s with time_left := computeTimeLeft (0 : ℚ) s.timer }) timerLE
            rw [hsort] at hperm
            have := hperm.length_eq
            simp [hdt] at this
            omega
          have hrestprompts : rest.map TimerState.prompts =
              List.replicate rest.length 0 := by
            have h0 : ∀ b ∈ rest.map TimerState.prompts, b = 0 := by
              intro b hb
              rcases List.mem_map.mp hb with ⟨s, hs, rfl⟩
              exact (hrest s hs).1
            rw [List.eq_replicate_of_mem h0, List.length_map]
          simp only [List.map_cons, hrestprompts, hlen, hx0]

/-- The startup schedule computation of scenario A: time_left becomes 1200,
the single timer's prompt count is already bumped to 1, and the first firing
is scheduled at 1200 seconds. -/
theorem runA_zero : runA 0 = stateA 0 := by
  show Daemon.updateTimer (Daemon.new cfgA 0 0) = stateA 0
  simp only [Daemon.updateTimer, Daemon.new, cfgA, tA, TimerState.new, List.map_cons,
    List.map_nil, List.mergeSort_singleton, stateA, computeTimeLeft, fmod]
  norm_num

/-- One quiet one-second tick of scenario A before the firing point. -/
theorem tickFull_stateA (q : ℚ) (h : q + 1 < 1200) :
    Daemon.tickFull (stateA q) (q + 1) 0 = (stateA (q + 1), false) := by
  have hfire : ¬ ((1200 : ℚ) ≤ q + 1) := not_le.mpr h
  simp only [Daemon.tickFull, stateA, cfgA, tA, advanceAndFire, tickDelta,
    Prod.mk.injEq]
  norm_num [hfire, max_def]

/-- Closed form of the scenario A run up to just before the firing. -/
theorem runA_le (k : ℕ) (hk : k ≤ 1199) : runA k = stateA k := by
  induction k with
  | zero => simpa using runA_zero
  | succ n ih =>
      have hn : n ≤ 1199 := by omega
      have hlt : (n : ℚ) + 1 < 1200 := by
        have : (n : ℚ) ≤ 1198 := by
          have : n ≤ 1198 := by omega
          exact_mod_cast this
        linarith
      show Daemon.tick (runA n) ((n : ℚ) + 1) 0 = stateA ((n + 1 : ℕ) : ℚ)
      rw [ih hn]
      have := tickFull_stateA (n : ℚ) hlt
      rw [Daemon.tick, this]
      push_cast
      rfl

/-- The firing tick of scenario A: at instant 1200 the timer fires and the
schedule recompute sets the next firing at 2400 with prompt count 2. -/
theorem tickFull_stateA_fire :
    Daemon.tickFull (stateA 1199) 1200 0 = (finalA, true) := by
  simp only [Daemon.tickFull, stateA, cfgA, tA, advanceAndFire, tickDelta, finalA,
    Daemon.updateTimer, computeTimeLeft, fmod, List.map_cons, List.map_nil,
    List.mergeSort_singleton, Prod.mk.injEq]
  norm_num [max_def]

/-- The full scenario A run of 1200 ticks ends in the post-firing state. -/
theorem runA_1200 : runA 1200 = finalA := by
  show Daemon.tick (runA 1199) (((1199 : ℕ) : ℚ) + 1) 0 = finalA
  rw [runA_le 1199 (by norm_num)]
  have hcast : ((1199 : ℕ) : ℚ) = 1199 := by norm_num
  rw [hcast]
  have harg : (1199 : ℚ) + 1 = 1200 := by norm_num
  rw [harg, Daemon.tick, tickFull_stateA_fire]

/-- No firing happens during the first 1199 ticks of scenario A. -/
theorem firesA_le (k : ℕ) (hk : k ≤ 1199) : firesA k = 0 := by
  induction k with
  | zero => rfl
  | succ n ih =>
      have hn : n ≤ 1199 := by omega
      have hlt : (n : ℚ) + 1 < 1200 := by
        have : (n : ℚ) ≤ 1198 := by
          have : n ≤ 1198 := by omega
          exact_mod_cast this
        linarith
      have hfired : Daemon.tickFired (runA n) ((n : ℚ) + 1) 0 = false := by
        rw [runA_le n hn, Daemon.tickFired, tickFull_stateA _ hlt]
      show firesA n + (if Daemon.tickFired (runA n) ((n : ℚ) + 1) 0 = true then 1 else 0) = 0
      rw [ih hn, hfired]
      simp

/-- Exactly one firing happens in the 1200 ticks of scenario A. -/
theorem firesA_1200 : firesA 1200 = 1 := by
  have hfired : Daemon.tickFired (runA 1199) (((1199 : ℕ) : ℚ) + 1) 0 = true := by
    rw [runA_le 1199 (by norm_num)]
    have hcast : ((1199 : ℕ) : ℚ) = 1199 := by norm_num
    rw [hcast, show (1199 : ℚ) + 1 = 1200 from by norm_num, Daemon.tickFired,
      tickFull_stateA_fire]
  have hsucc : ∀ n : ℕ, firesA (n + 1) = firesA n +
      (if Daemon.tickFired (runA n) ((n : ℚ) + 1) 0 = true then 1 else 0) := fun n => rfl
  rw [show (1200 : ℕ) = 1199 + 1 from rfl, hsucc 1199, firesA_le 1199 (by norm_num), hfired]
  simp

/-- C5, counterexample.  After the 1200 one-second ticks of scenario A the
timer's prompt count is 2, not 1 as the claim states: the count was already
incremented once by the startup schedule computation and once more by the
firing recompute. -/
theorem C5_counterexample :
    (runA 1200).timers.map TimerState.prompts = [2] ∧
      ¬ (runA 1200).timers.map TimerState.prompts = [1] := by
  rw [runA_1200]
  exact ⟨rfl, by decide⟩

/-- C5, amended.  In scenario A (one timer of interval 1200 seconds, decline
zero, no input tracking), over 1200 one-second ticks exactly one firing
occurs, at the tick where elapsed reaches 1200 seconds; the new
next_timer_at is 2400 seconds; and the timer's prompt count becomes 2 (one
increment from the startup schedule computation plus one from the firing),
not 1. -/
theorem C5_scenario_A :
    firesA 1200 = 1 ∧
      Daemon.tickFired (runA 1199) 1200 0 = true ∧
      (runA 1199).elapsed = 1199 ∧
      (runA 1200).elapsed = 1200 ∧
      (runA 1200).timers.map TimerState.prompts = [2] ∧
      (runA 1200).next_timer_at = 2400 := by
  refine ⟨firesA_1200, ?_, ?_, ?_, ?_, ?_⟩
  · rw [runA_le 1199 (by norm_num), show ((1199 : ℕ) : ℚ) = 1199 from by norm_num,
      Daemon.tickFired, tickFull_stateA_fire]
  · rw [runA_le 1199 (by norm_num)]
    norm_num [stateA]
  · rw [runA_1200]
    rfl
  · rw [runA_1200]
    rfl
  · rw [runA_1200]
    rfl

/-- The startup schedule computation of scenario B. -/
theorem updateTimer_newB : Daemon.updateTimer (Daemon.new cfgB 0 0) = dB1 := by
  simp only [Daemon.updateTimer, Daemon.new, cfgB, tB, TimerState.new, List.map_cons,
    List.map_nil, List.mergeSort_singleton, dB1, computeTimeLeft, fmod]
  norm_num

/-- The first firing of scenario B, reached in one big tick at instant
3600: the recompute sees prompt count 1 and decline one half. -/
theorem tick_dB1 : Daemon.tick dB1 3600 0 = dB2 := by
  simp only [Daemon.tick, Daemon.tickFull, dB1, cfgB, tB, advanceAndFire, tickDelta,
    Daemon.updateTimer, computeTimeLeft, fmod, List.map_cons, List.map_nil,
    List.mergeSort_singleton, dB2]
  norm_num [max_def]

/-- C6: in scenario B (one timer of interval 3600 seconds, decline one
half), the startup computation leaves prompt count 1 and first firing at
3600; at the first firing the recompute uses prompt count 1, so the
adjusted wait until the second firing is 3600 times (1 / 1.5) to the first
power, which is exactly 2400 seconds (40 minutes). -/
theorem C6_decline_second_wait :
    (Daemon.updateTimer (Daemon.new cfgB 0 0)).timers.map TimerState.prompts = [1] ∧
      (Daemon.updateTimer (Daemon.new cfgB 0 0)).next_timer_at = 3600 ∧
      (Daemon.tick (Daemon.updateTimer (Daemon.new cfgB 0 0)) 3600 0).next_timer_at -
          (Daemon.tick (Daemon.updateTimer (Daemon.new cfgB 0 0)) 3600 0).elapsed =
        3600 * (1 / (1 + (1 / 2 : ℚ))) ^ 1 ∧
      (3600 : ℚ) * (1 / (1 + (1 / 2 : ℚ))) ^ 1 = 2400 := by
  refine ⟨?_, ?_, ?_, by norm_num⟩
  · rw [updateTimer_newB]
    rfl
  · rw [updateTimer_newB]
    rfl
  · rw [updateTimer_newB, tick_dB1]
    norm_num [dB2]

/-- C1, counterexample.  After a reset on the one-timer daemon, the selected
timer's prompt count is 1, not 0: the claim that a reset leaves every
prompt_count at 0 fails. -/
theorem C1_counterexample :
    (Daemon.reset dA).timers.map TimerState.prompts = [1] ∧
      ¬ ∀ s ∈ (Daemon.reset dA).timers, s.prompts = 0 := by
  have hev : (Daemon.reset dA).timers.map TimerState.prompts = [1] := by
    simp only [Daemon.reset, Daemon.updateTimer, dA, cfgA, tA, Daemon.new, TimerState.new,
      TimerState.reset, List.map_cons, List.map_nil, List.mergeSort_singleton]
  refine ⟨hev, fun hall => ?_⟩
  have h1mem : (1 : ℕ) ∈ (Daemon.reset dA).timers.map TimerState.prompts := by
    rw [hev]
    exact List.mem_cons_self 1 []
  rcases List.mem_map.mp h1mem with ⟨s, hs, hps⟩
  have := hall s hs
  rw [this] at hps
  exact absurd hps (by norm_num)

/-- C10 witness: a 400-second gap on the freshly initialized tracking state
credits all 400 seconds to elapsed and leaves the frozen flag untouched. -/
theorem C10_gap_with_zero_elapsed_witness :
    tickResets dT0 400 0 = false ∧
      (Daemon.tick dT0 400 0).is_frozen = dT0.is_frozen ∧
      (Daemon.tick dT0 400 0).elapsed =
        (if dT0.is_enabled = true ∧ dT0.is_frozen = false then tickDelta dT0 400 else 0) :=
  C10_gap_with_zero_elapsed dT0 400 0 itW rfl
    (by norm_num [tickDelta, dT0, cfgT, Daemon.new, itW, max_def]) rfl

end Blink
